import Mathlib

/-!
Verification development for the triangle-mesh core of the Mitsuba renderer
(`src/librender/trimesh.cpp`).

Shallow embedding conventions:
* `Float` scalars are modelled by `ℚ` (exact arithmetic).  All the operations
  the embedded code performs on coordinates are field operations and
  comparisons, which `ℚ` models exactly; square roots never appear directly —
  the code only ever uses a length to normalize a vector or to test it
  against zero, and `|v| = 0 ↔ v = 0` holds exactly, so zero-length tests are
  modelled as `v = 0`.  Where the code genuinely needs an irrational quantity
  (the reciprocal length `1/|v|` fed into a normalization, the angle weight
  `unitAngle(...)`), the embedding takes that operation as an explicit
  function parameter, keeping every branch and data flow of the source intact.
* `m_vertexCount` is modelled as `positions.length` and `m_triangleCount` as
  `triangles.length` (the C++ buffers always have exactly these lengths).
* Fatal `Log(EError, ...)` calls abort the current operation; they are
  modelled by `Except Err`.
* The external typed-stream collaborator is modelled by a list of scalar
  cells (§6 of the spec: fixed-width integers, length-prefixed strings, float
  arrays); the transparent compression wrapper (`ZStream`) is a passthrough.
-/

/-- 3-component vector/point/normal/color over exact scalars. -/
abbrev Vec3 : Type := ℚ × ℚ × ℚ

/-- 2-component vector (texture coordinate). -/
abbrev Vec2 : Type := ℚ × ℚ

/-- The zero 3-vector. -/
def v3zero : Vec3 := (0, 0, 0)

/-- The zero 2-vector. -/
def v2zero : Vec2 := (0, 0)

/-- Componentwise sum. -/
def vadd (a b : Vec3) : Vec3 := (a.1 + b.1, a.2.1 + b.2.1, a.2.2 + b.2.2)

/-- Componentwise difference. -/
def vsub (a b : Vec3) : Vec3 := (a.1 - b.1, a.2.1 - b.2.1, a.2.2 - b.2.2)

/-- Scalar multiple. -/
def vsmul (c : ℚ) (a : Vec3) : Vec3 := (c * a.1, c * a.2.1, c * a.2.2)

/-- Negation (the code's `n *= -1`). -/
def vneg (a : Vec3) : Vec3 := vsmul (-1) a

/-- Difference of 2-vectors. -/
def v2sub (a b : Vec2) : Vec2 := (a.1 - b.1, a.2 - b.2)

/-- Dot product. -/
def vdot (a b : Vec3) : ℚ := a.1 * b.1 + a.2.1 * b.2.1 + a.2.2 * b.2.2

/-- Cross product. -/
def vcross (a b : Vec3) : Vec3 :=
  (a.2.1 * b.2.2 - a.2.2 * b.2.1,
   a.2.2 * b.1 - a.1 * b.2.2,
   a.1 * b.2.1 - a.2.1 * b.1)

/-- A triangle: three `uint32` vertex indices (`Triangle::idx`). -/
structure Tri where
  a : ℕ
  b : ℕ
  c : ℕ
deriving DecidableEq

/-- Corner `j` (0, 1 or 2) of a triangle, as in the `tri.idx[j]` accesses. -/
def Tri.corner (t : Tri) (j : ℕ) : ℕ :=
  match j with
  | 0 => t.a
  | 1 => t.b
  | _ => t.c

/-- Fatal errors (`Log(EError, ...)`) raised by the embedded operations. -/
inductive Err where
  /-- stream not set to little-endian byte order -/
  | byteOrder
  /-- legacy `0x1C04` magic: "please re-import" -/
  | legacyFormat
  /-- unrecognized magic number -/
  | badFormat
  /-- unsupported file version -/
  | badVersion
  /-- requested segment index rejected by the range check -/
  | segmentRange
  /-- the underlying stream ran out of data / delivered the wrong type -/
  | streamEnd
  /-- `prepareSamplingTable` on an empty mesh -/
  | emptyMesh
  /-- `computeUVTangents` without texcoords on an anisotropic mesh -/
  | needTexcoords
  /-- a defensive `Assert` fired -/
  | assertFailed
deriving DecidableEq

/--
The mesh entity (`TriMesh`).  `anisotropic` abbreviates the external material
capability query `hasBSDF() && (m_bsdf->getType() & BSDF::EAnisotropic)`
(spec §6: only boolean capability predicates are consumed from the material).
`areaDistr` holds the lazily built per-triangle area table (`m_areaDistr`);
`surfaceArea < 0` is the "not yet built" sentinel.
-/
structure Mesh where
  name : String
  positions : List Vec3
  normals : Option (List Vec3)
  texcoords : Option (List Vec2)
  colors : Option (List Vec3)
  tangents : Option (List (Vec3 × Vec3))
  triangles : List Tri
  faceNormals : Bool
  flipNormals : Bool
  anisotropic : Bool
  surfaceArea : ℚ
  invSurfaceArea : ℚ
  areaDistr : Option (List ℚ)
deriving DecidableEq

/-- Position of vertex `i` (`m_positions[i]`). -/
def Mesh.pos (m : Mesh) (i : ℕ) : Vec3 := m.positions.getD i v3zero

/-- Triangle `i` (`m_triangles[i]`). -/
def Mesh.tri (m : Mesh) (i : ℕ) : Tri := m.triangles.getD i ⟨0, 0, 0⟩

/--
Unnormalized geometric normal `cross(v1 - v0, v2 - v0)` of a triangle, as
computed in `rebuildTopology`, `computeNormals` and `computeUVTangents`.
-/
def triCross (m : Mesh) (t : Tri) : Vec3 :=
  vcross (vsub (m.pos t.b) (m.pos t.a)) (vsub (m.pos t.c) (m.pos t.a))

/-- UV-space edge-delta determinant `dUV1.x * dUV2.y - dUV1.y * dUV2.x`. -/
def triUVDet (uvs : List Vec2) (t : Tri) : ℚ :=
  let uv0 := uvs.getD t.a v2zero
  let uv1 := uvs.getD t.b v2zero
  let uv2 := uvs.getD t.c v2zero
  let dUV1 := v2sub uv1 uv0
  let dUV2 := v2sub uv2 uv0
  dUV1.1 * dUV2.2 - dUV1.2 * dUV2.1

/-! ## computeNormals (trimesh.cpp lines 544-616)

The two irrational operations of the synthesis branch are taken as
parameters:
* `invLen v` models `1 / v.length()` for a nonzero `v` (used to normalize);
* `angleW a b` models `unitAngle(normalize(a), normalize(b))`, the angle
  weight of Thuermer-Wuethrich accumulation.
-/

/-- Swap the first two indices of a triangle (winding reversal, line 556). -/
def swap01 (t : Tri) : Tri := ⟨t.b, t.a, t.c⟩

/-- Add `v` into accumulator slot `i` (`m_normals[tri.idx[i]] += ...`). -/
def addAt (acc : List Vec3) (i : ℕ) (v : Vec3) : List Vec3 :=
  acc.set i (vadd (acc.getD i v3zero) v)

/--
Contribution of one triangle to the vertex-normal accumulators
(lines 575-593).  The face normal is computed once from the corner-0 edges;
a zero-length face normal makes the triangle contribute nothing (`break`).
-/
def accumTri (m : Mesh) (invLen : Vec3 → ℚ) (angleW : Vec3 → Vec3 → ℚ)
    (acc : List Vec3) (t : Tri) : List Vec3 :=
  let sideA0 := vsub (m.pos (t.corner 1)) (m.pos (t.corner 0))
  let sideB0 := vsub (m.pos (t.corner 2)) (m.pos (t.corner 0))
  let nraw := vcross sideA0 sideB0
  if nraw = v3zero then acc
  else
    let n := vsmul (invLen nraw) nraw
    let step := fun (ac : List Vec3) (i : ℕ) =>
      let sideA := vsub (m.pos (t.corner ((i + 1) % 3))) (m.pos (t.corner i))
      let sideB := vsub (m.pos (t.corner ((i + 2) % 3))) (m.pos (t.corner i))
      addAt ac (t.corner i) (vsmul (angleW sideA sideB) n)
    step (step (step acc 0) 1) 2

/--
Final per-vertex pass (lines 595-607): normalize each accumulated sum,
negating first when a flip was requested; a zero sum gets the bogus fallback
`(1, 0, 0)`.  The flip is modelled by negating after scaling, matching
`length *= -1; n /= length`.
-/
def finishNormal (invLen : Vec3 → ℚ) (flip : Bool) (n : Vec3) : Vec3 :=
  if n = v3zero then (1, 0, 0)
  else if flip then vneg (vsmul (invLen n) n) else vsmul (invLen n) n

/--
Branch body of `TriMesh::computeNormals` (lines 544-609), before the final
unconditional clearing of `m_flipNormals`.  Returns the updated mesh together
with the `invalidNormals` tally (logged as a non-fatal warning when positive).
-/
def computeNormalsCore (invLen : Vec3 → ℚ) (angleW : Vec3 → Vec3 → ℚ)
    (m : Mesh) : Mesh × ℕ :=
  if m.faceNormals then
    ({ m with normals := none,
              triangles := if m.flipNormals then m.triangles.map swap01
                           else m.triangles }, 0)
  else
    match m.normals with
    | some ns =>
      ({ m with normals := some (if m.flipNormals then ns.map vneg else ns) }, 0)
    | none =>
      let acc := m.triangles.foldl (accumTri m invLen angleW)
        (List.replicate m.positions.length v3zero)
      let invalid := acc.countP (fun n => decide (n = v3zero))
      ({ m with normals := some (acc.map (finishNormal invLen m.flipNormals)) },
       invalid)

/--
`TriMesh::computeNormals` (lines 544-616): run the branch body, then clear
`m_flipNormals` unconditionally (line 611).
-/
def computeNormals (invLen : Vec3 → ℚ) (angleW : Vec3 → Vec3 → ℚ)
    (m : Mesh) : Mesh × ℕ :=
  let r := computeNormalsCore invLen angleW m
  ({ r.1 with flipNormals := false }, r.2)

/-- C6: after every `computeNormals` call, whichever branch executed, the
`flipNormalsRequested` flag is false. -/
theorem computeNormals_clears_flip (invLen : Vec3 → ℚ)
    (angleW : Vec3 → Vec3 → ℚ) (m : Mesh) :
    (computeNormals invLen angleW m).1.flipNormals = false := rfl

/-! ## The wire codec (trimesh.cpp lines 32-34, 87-96, 146-283, 840-884)

The external stream collaborator is modelled by a list of scalar `Cell`s.
Each cell is one scalar written by the stream API the code uses
(`writeShort`, `writeUInt`, `writeSize`, `writeString`, one element of
`writeFloatArray` / `writeUIntArray`).  Reading a cell of the wrong kind, or
reading past the end, is a fatal stream error.  The `ZStream` compression
wrapper is transparent (spec §4.1/§6) and is modelled as the identity; the
writer and reader wrap the stream at the same point (after the two header
shorts), so the wrapping cancels.  Because scalars are exact `ℚ`, the
single/double width conversion loops of `readHelper` are lossless here; their
branch structure is kept.
-/

/-- One scalar on the wire. -/
inductive Cell where
  | short (v : ℤ)
  | uint (v : ℕ)
  | usize (v : ℕ)
  | str (s : String)
  | flt (q : ℚ)
deriving DecidableEq

/-- `Stream::readShort`. -/
def readShortC : List Cell → Except Err (ℤ × List Cell)
  | Cell.short v :: r => .ok (v, r)
  | _ => .error .streamEnd

/-- `Stream::readUInt`. -/
def readUIntC : List Cell → Except Err (ℕ × List Cell)
  | Cell.uint v :: r => .ok (v, r)
  | _ => .error .streamEnd

/-- `Stream::readSize`. -/
def readUSizeC : List Cell → Except Err (ℕ × List Cell)
  | Cell.usize v :: r => .ok (v, r)
  | _ => .error .streamEnd

/-- `Stream::readString`. -/
def readStrC : List Cell → Except Err (String × List Cell)
  | Cell.str s :: r => .ok (s, r)
  | _ => .error .streamEnd

/-- `Stream::readFloatArray(target, n)`: read `n` native-width scalars. -/
def readFloats : ℕ → List Cell → Except Err (List ℚ × List Cell)
  | 0, cs => .ok ([], cs)
  | n + 1, Cell.flt q :: r =>
    match readFloats n r with
    | .ok (l, rest) => .ok (q :: l, rest)
    | .error e => .error e
  | _ + 1, _ => .error .streamEnd

/-- `Stream::readUIntArray(target, n)`: read `n` uint32 scalars. -/
def readUInts : ℕ → List Cell → Except Err (List ℕ × List Cell)
  | 0, cs => .ok ([], cs)
  | n + 1, Cell.uint v :: r =>
    match readUInts n r with
    | .ok (l, rest) => .ok (v :: l, rest)
    | .error e => .error e
  | _ + 1, _ => .error .streamEnd

/--
`readHelper` (lines 146-172): if the file precision matches the host
precision load directly, otherwise read through a conversion buffer
(element-wise casts, which are the identity on exact scalars).
-/
def readHelper (fileDouble hostDouble : Bool) (size : ℕ) (cs : List Cell) :
    Except Err (List ℚ × List Cell) :=
  if fileDouble = hostDouble then
    readFloats size cs
  else if fileDouble then
    match readFloats size cs with
    | .ok (temp, rest) => .ok (temp.map (fun x => x), rest)
    | .error e => .error e
  else
    match readFloats size cs with
    | .ok (temp, rest) => .ok (temp.map (fun x => x), rest)
    | .error e => .error e

/-- Flatten a `Vec3` array to its scalar stream (3 floats per element). -/
def flatten3 : List Vec3 → List ℚ
  | [] => []
  | v :: r => v.1 :: v.2.1 :: v.2.2 :: flatten3 r

/-- Flatten a `Vec2` array to its scalar stream (2 floats per element). -/
def flatten2 : List Vec2 → List ℚ
  | [] => []
  | v :: r => v.1 :: v.2 :: flatten2 r

/-- Rebuild a `Vec3` array from its scalar stream. -/
def chunk3 : List ℚ → List Vec3
  | x :: y :: z :: r => (x, y, z) :: chunk3 r
  | _ => []

/-- Rebuild a `Vec2` array from its scalar stream. -/
def chunk2 : List ℚ → List Vec2
  | x :: y :: r => (x, y) :: chunk2 r
  | _ => []

/-- Flatten triangles into the uint32 index stream (3 per triangle). -/
def flattenTri : List Tri → List ℕ
  | [] => []
  | t :: r => t.a :: t.b :: t.c :: flattenTri r

/-- Rebuild triangles from the uint32 index stream. -/
def chunkTri : List ℕ → List Tri
  | x :: y :: z :: r => ⟨x, y, z⟩ :: chunkTri r
  | _ => []

/--
The `ETriMeshFlags` word written by `TriMesh::serialize(Stream*)`
(lines 851-864): a precision bit (`ESinglePrecision = 0x1000` or
`EDoublePrecision = 0x2000`) plus `EHasNormals = 0x0001`,
`EHasTexcoords = 0x0002`, `EHasColors = 0x0008`, `EFaceNormals = 0x0010`.
-/
def mkFlags (hostDouble hasNormals hasTexcoords hasColors faceNormals : Bool) :
    ℕ :=
  (if hostDouble then 0x2000 else 0x1000) +
  (if hasNormals then 0x0001 else 0) +
  (if hasTexcoords then 0x0002 else 0) +
  (if hasColors then 0x0008 else 0) +
  (if faceNormals then 0x0010 else 0)

/--
The cell sequence produced by `TriMesh::serialize(Stream*)`
(lines 840-884) on a little-endian stream: magic `0x041C`, version 4,
then (through the compression wrapper) flags, name, vertex count, triangle
count, the raw arrays in fixed order, and the triangle index array.
-/
def serCells (hostDouble : Bool) (m : Mesh) : List Cell :=
  [Cell.short 0x041C, Cell.short 0x0004,
   Cell.uint (mkFlags hostDouble m.normals.isSome m.texcoords.isSome
     m.colors.isSome m.faceNormals),
   Cell.str m.name,
   Cell.usize m.positions.length,
   Cell.usize m.triangles.length] ++
  (flatten3 m.positions).map Cell.flt ++
  (match m.normals with
   | some ns => (flatten3 ns).map Cell.flt
   | none => []) ++
  (match m.texcoords with
   | some ts => (flatten2 ts).map Cell.flt
   | none => []) ++
  (match m.colors with
   | some cls => (flatten3 cls).map Cell.flt
   | none => []) ++
  (flattenTri m.triangles).map Cell.uint

/--
`TriMesh::serialize(Stream *stream)` (lines 840-884): fatal error unless the
underlying stream is little-endian, otherwise emit `serCells`.
-/
def serializeStandalone (hostDouble littleEndian : Bool) (m : Mesh) :
    Except Err (List Cell) :=
  if littleEndian = false then .error .byteOrder
  else .ok (serCells hostDouble m)

/--
The fields `loadCompressed` assigns when decoding a body whose parsed header
data is (`version`, `flags`, ...).  `base` is the mesh object the member
function runs on: `m_tangents`, `m_areaDistr` and the material association
are left untouched, and for a version-3 body `m_name` keeps its old value.
-/
def loadedMesh (base : Mesh) (nm : String) (fcN : Bool) (ps : List Vec3)
    (ns : Option (List Vec3)) (ts : Option (List Vec2))
    (cls : Option (List Vec3)) (trs : List Tri) : Mesh :=
  { base with
    name := nm
    positions := ps
    normals := ns
    texcoords := ts
    colors := cls
    triangles := trs
    faceNormals := fcN
    flipNormals := false
    surfaceArea := -1
    invSurfaceArea := -1 }

/-- Test one `ETriMeshFlags` bit: the C++ `flags & mask` used as a truth
value. -/
def flagSet (flags mask : ℕ) : Bool := flags &&& mask ≠ 0

/--
`TriMesh::loadCompressed(Stream *stream, int index)` for `index = 0`
(lines 175-283): with index 0 the trailer block of lines 196-219 does not
execute, so the function reads the stream purely sequentially — byte-order
check, the two header shorts with the magic / legacy-magic / version checks,
then (through a fresh compression wrapper) flags, the version-4 name, the two
counts, the attribute arrays via `readHelper`, and the triangle indices.
Unconsumed cells are returned untouched.
-/
def loadCompressed0 (hostDouble littleEndian : Bool) (base : Mesh)
    (cs : List Cell) : Except Err (Mesh × List Cell) :=
  if littleEndian = false then .error .byteOrder
  else
    match readShortC cs with
    | .error e => .error e
    | .ok (format, cs) =>
      if format = 0x1C04 then .error .legacyFormat
      else if format ≠ 0x041C then .error .badFormat
      else
        match readShortC cs with
        | .error e => .error e
        | .ok (version, cs) =>
          if version ≠ 0x0003 ∧ version ≠ 0x0004 then .error .badVersion
          else
            match readUIntC cs with
            | .error e => .error e
            | .ok (flags, cs) =>
              match (if version = 0x0004 then readStrC cs
                     else .ok (base.name, cs)) with
              | .error e => .error e
              | .ok (nm, cs) =>
                match readUSizeC cs with
                | .error e => .error e
                | .ok (vc, cs) =>
                  match readUSizeC cs with
                  | .error e => .error e
                  | .ok (tc, cs) =>
                    let fileDouble := flagSet flags 0x2000
                    let fcN := flagSet flags 0x0010
                    match readHelper fileDouble hostDouble (vc * 3) cs with
                    | .error e => .error e
                    | .ok (posF, cs) =>
                      match (if flagSet flags 0x0001 then
                               (readHelper fileDouble hostDouble (vc * 3)
                                 cs).map (fun r => (some r.1, r.2))
                             else .ok (none, cs)) with
                      | .error e => .error e
                      | .ok (nsF, cs) =>
                        match (if flagSet flags 0x0002 then
                                 (readHelper fileDouble hostDouble (vc * 2)
                                   cs).map (fun r => (some r.1, r.2))
                               else .ok (none, cs)) with
                        | .error e => .error e
                        | .ok (tsF, cs) =>
                          match (if flagSet flags 0x0008 then
                                   (readHelper fileDouble hostDouble (vc * 3)
                                     cs).map (fun r => (some r.1, r.2))
                                 else .ok (none, cs)) with
                          | .error e => .error e
                          | .ok (clsF, cs) =>
                            match readUInts (tc * 3) cs with
                            | .error e => .error e
                            | .ok (idxF, cs) =>
                              .ok (loadedMesh base nm fcN (chunk3 posF)
                                (nsF.map chunk3) (tsF.map chunk2)
                                (clsF.map chunk3) (chunkTri idxF), cs)

/--
The header and segment-range checks of `TriMesh::loadCompressed`
(lines 175-207), for a requested segment `index` against an archive whose
trailer records `trailerCount` segments: byte-order check, legacy-magic
check, magic check, version check; then, only when `index ≠ 0`, the trailer
count is read and the range check `index < 0 || index > (int) count` is
applied (line 203).  The subsequent offset-table seeks (lines 209-218) are
unchecked external stream operations and are elided here.
-/
def loadCompressedHeaderCheck (littleEndian : Bool) (format version : ℤ)
    (index : ℤ) (trailerCount : ℕ) : Except Err Unit :=
  if littleEndian = false then .error .byteOrder
  else if format = 0x1C04 then .error .legacyFormat
  else if format ≠ 0x041C then .error .badFormat
  else if version ≠ 0x0003 ∧ version ≠ 0x0004 then .error .badVersion
  else if index ≠ 0 then
    if index < 0 ∨ index > (trailerCount : ℤ) then .error .segmentRange
    else .ok ()
  else .ok ()

/-! ## computeUVTangents (trimesh.cpp lines 618-675)

`coordinateSystem(n/length, dpdu, dpdv)` builds an arbitrary orthonormal
basis perpendicular to the unit normal; it lives in the core library (not in
this translation unit) and involves a normalization, so the embedding takes
it as a parameter `csn` applied to the unnormalized geometric normal:
`csn n` models `coordinateSystem(n / n.length())`.
-/

/--
The tangent pair stored for one triangle by `computeUVTangents`
(lines 636-670).  The output array is zero-initialized (`memset`, line 634):
a triangle whose geometric normal has zero length is skipped (`continue`),
leaving the zero pair; a nonzero normal with a zero UV determinant gets the
`coordinateSystem` fallback; otherwise the 2×2 UV system is solved.
-/
def tangentOf (csn : Vec3 → Vec3 × Vec3) (m : Mesh) (uvs : List Vec2)
    (t : Tri) : Vec3 × Vec3 :=
  let p0 := m.pos t.a
  let p1 := m.pos t.b
  let p2 := m.pos t.c
  let dP1 := vsub p1 p0
  let dP2 := vsub p2 p0
  let n := triCross m t
  if n = v3zero then (v3zero, v3zero)
  else
    let det := triUVDet uvs t
    if det = 0 then csn n
    else
      let invDet := 1 / det
      let uv0 := uvs.getD t.a v2zero
      let uv1 := uvs.getD t.b v2zero
      let uv2 := uvs.getD t.c v2zero
      let dUV1 := v2sub uv1 uv0
      let dUV2 := v2sub uv2 uv0
      (vsmul invDet (vsub (vsmul dUV2.2 dP1) (vsmul dUV1.2 dP2)),
       vsmul invDet (vadd (vsmul (-dUV2.1) dP1) (vsmul dUV1.1 dP2)))

/-- One step of the per-triangle loop: append the tangent pair, bump the
`degenerate` tally when the geometric normal is zero (lines 654-658). -/
def tangentStep (csn : Vec3 → Vec3 × Vec3) (m : Mesh) (uvs : List Vec2)
    (acc : List (Vec3 × Vec3) × ℕ) (t : Tri) : List (Vec3 × Vec3) × ℕ :=
  (acc.1 ++ [tangentOf csn m uvs t],
   if triCross m t = v3zero then acc.2 + 1 else acc.2)

/--
`TriMesh::computeUVTangents` (lines 618-675).  No texcoords: fatal error iff
the attached material is anisotropic, otherwise return unchanged.  Tangents
already present: return unchanged.  Otherwise build one tangent pair per
triangle.  The second component is the `degenerate` tally, logged as a
non-fatal warning when positive.
-/
def computeUVTangents (csn : Vec3 → Vec3 × Vec3) (m : Mesh) :
    Except Err (Mesh × ℕ) :=
  match m.texcoords with
  | none =>
    if m.anisotropic then .error .needTexcoords else .ok (m, 0)
  | some uvs =>
    if m.tangents.isSome then .ok (m, 0)
    else
      let r := m.triangles.foldl (tangentStep csn m uvs) ([], 0)
      .ok ({ m with tangents := some r.1 }, r.2)

/-! ## prepareSamplingTable / getSurfaceArea (trimesh.cpp lines 339-361)

`Triangle::surfaceArea` (a header utility, not part of this translation
unit) returns half the length of the edge cross product — an irrational
square root — so the embedding takes the per-triangle area as a function
parameter `triArea : ℕ → ℚ` (area of triangle `i`); geometric areas are
nonnegative, which theorems take as a hypothesis.  `DiscreteDistribution`
is an external core collaborator.  Modelled from the spec: "compute each
triangle's area, build the piecewise-constant CDF over triangles, normalize
to obtain total `surfaceArea` and its reciprocal" — `normalize()` returns
the sum of the appended areas, and the stored table is the area list.
The exclusive lock only serializes callers (spec §5) and has no effect on
the single-threaded result modelled here.
-/

/--
`TriMesh::prepareSamplingTable` (lines 339-354): fatal on an empty mesh;
otherwise build the area table only when `m_surfaceArea` still holds the
negative sentinel, setting `m_surfaceArea` to the normalization total and
`m_invSurfaceArea` to its reciprocal.
-/
def prepareSamplingTable (triArea : ℕ → ℚ) (m : Mesh) : Except Err Mesh :=
  if m.triangles.length = 0 then .error .emptyMesh
  else if m.surfaceArea < 0 then
    let areas := (List.range m.triangles.length).map triArea
    let total := areas.sum
    .ok { m with areaDistr := some areas,
                 surfaceArea := total,
                 invSurfaceArea := 1 / total }
  else .ok m

/--
`TriMesh::getSurfaceArea` (lines 356-361): trigger the lazy build when the
sentinel is still set, then return the cached area (with the possibly
updated mesh).
-/
def getSurfaceArea (triArea : ℕ → ℚ) (m : Mesh) : Except Err (ℚ × Mesh) :=
  if m.surfaceArea < 0 then
    match prepareSamplingTable triArea m with
    | .error e => .error e
    | .ok m' => .ok (m'.surfaceArea, m')
  else .ok (m.surfaceArea, m)

/-! ## getNormalDerivative (trimesh.cpp lines 677-755)

`il = 1 / N.length()` is the one irrational quantity; it is taken as the
parameter `invLen` (shared shape with `computeNormals`).  The defensive
`Assert(its.primIndex < m_triangleCount)` is modelled as a fatal check.
-/

/--
`TriMesh::getNormalDerivative` (lines 677-755).  `p` and `primIndex` are the
fields of the intersection record the function reads.  When `shadingFrame`
is false or the mesh stores no vertex normals, both derivatives are zero and
no triangle, position or normal data is touched.  Otherwise barycentric
coordinates are re-derived from the normal-equations system (singular system:
zero derivatives), the derivative of the renormalized interpolated normal is
formed, and, when tangent frames exist, re-expressed in UV space (singular
UV system: zero derivatives).
-/
def getNormalDerivative (invLen : Vec3 → ℚ) (m : Mesh) (p : Vec3)
    (primIndex : ℕ) (shadingFrame : Bool) : Except Err (Vec3 × Vec3) :=
  match shadingFrame, m.normals with
  | false, _ => .ok (v3zero, v3zero)
  | true, none => .ok (v3zero, v3zero)
  | true, some ns =>
    if primIndex ≥ m.triangles.length then .error .assertFailed
    else
      let tri := m.tri primIndex
      let p0 := m.pos tri.a
      let p1 := m.pos tri.b
      let p2 := m.pos tri.c
      let rel := vsub p p0
      let du := vsub p1 p0
      let dv := vsub p2 p0
      let b1 := vdot du rel
      let b2 := vdot dv rel
      let a11 := vdot du du
      let a12 := vdot du dv
      let a22 := vdot dv dv
      let det := a11 * a22 - a12 * a12
      if det = 0 then .ok (v3zero, v3zero)
      else
        let invDet := 1 / det
        let u := (a22 * b1 - a12 * b2) * invDet
        let v := (-a12 * b1 + a11 * b2) * invDet
        let w := 1 - u - v
        let n0 := ns.getD tri.a v3zero
        let n1 := ns.getD tri.b v3zero
        let n2 := ns.getD tri.c v3zero
        let bigN := vadd (vadd (vsmul u n1) (vsmul v n2)) (vsmul w n0)
        let il := invLen bigN
        let bigNn := vsmul il bigN
        let dndu0 := vsmul il (vsub n1 n0)
        let dndu := vsub dndu0 (vsmul (vdot bigNn dndu0) bigNn)
        let dndv0 := vsmul il (vsub n2 n0)
        let dndv := vsub dndv0 (vsmul (vdot bigNn dndv0) bigNn)
        match m.tangents with
        | none => .ok (dndu, dndv)
        | some _ =>
          let uvs := m.texcoords.getD []
          let uv0 := uvs.getD tri.a v2zero
          let uv1 := uvs.getD tri.b v2zero
          let uv2 := uvs.getD tri.c v2zero
          let duv1 := v2sub uv1 uv0
          let duv2 := v2sub uv2 uv0
          let det2 := duv1.1 * duv2.2 - duv1.2 * duv2.1
          if det2 = 0 then .ok (v3zero, v3zero)
          else
            let invDet2 := 1 / det2
            .ok (vsmul invDet2 (vsub (vsmul duv2.2 dndu) (vsmul duv1.2 dndv)),
                 vsmul invDet2 (vadd (vsmul (-duv2.1) dndu)
                   (vsmul duv1.1 dndv)))

/-! ## rebuildTopology (trimesh.cpp lines 375-542)

The embedding covers the clustering pass (lines 418-515) for the crease
angle 180°, the case claimed by the spec.  Exact-arithmetic notes, justified
against the source:

* `dpThresh = cos(degToRad(maxAngle))` (line 421).  For `maxAngle = 180` the
  IEEE evaluation is exact: `degToRad(180)` is the floating-point
  representation of π and its cosine, `-1 + O(ε²)`, rounds to exactly `-1.0`
  in single and in double precision, so `dpThresh = -1`.
* `faceNormals[i] = Normal(normalize(cross(v1 - v0, v2 - v0)))` (line 466).
  The embedding keeps the unnormalized cross product `u` and re-expresses
  the two comparisons the code makes on the normalized vectors
  `n_i = u_i / |u_i|`:
  - `n1 == n2` (componentwise float equality, line 498) holds iff `u1, u2`
    are both nonzero and positively parallel, i.e.
    `cross(u1, u2) = 0 ∧ dot(u1, u2) > 0`;
  - `dot(n1, n2) > dpThresh = -1` holds iff `u1, u2` are both nonzero and
    not anti-parallel, i.e. `¬(cross(u1, u2) = 0 ∧ dot(u1, u2) < 0)`
    (Cauchy-Schwarz: `dot(n1, n2) ≥ -1` with equality exactly at
    anti-parallel pairs);
  - a degenerate triangle has `u = 0`; `normalize(0) = 0/0` is IEEE NaN, and
    every comparison against NaN is false — including `NaN == NaN` — so both
    tests are false whenever either cross product is zero.
* the `std::multimap` ordered by `vertex_key_order` visits buckets in
  ascending key order (the comparator returns 0 only at componentwise
  equality, so bucket = exact key equality), and within a bucket entries
  keep insertion order; both are reproduced literally.  A `clustered` flag
  is only ever read and written while its own bucket is processed
  (the inner scan runs from `it2` to the bucket's `upper_bound`), so flags
  are materialized per bucket.
-/

/-- The `Vertex` key of the associative list: position, uv, color, with the
const-initialized defaults used when the mesh lacks an attribute
(lines 375-380, 454-460). -/
structure VKey where
  p : Vec3
  uv : Vec2
  col : Vec3
deriving DecidableEq

/-- Three-way scalar comparison used by `vertex_key_order::compare`. -/
def qcmp (a b : ℚ) : ℤ :=
  if a < b then -1 else if b < a then 1 else 0

/-- `vertex_key_order::compare` (lines 385-401): lexicographic on
`p.x, p.y, p.z, uv.x, uv.y, col[0..2]` (`SPECTRUM_SAMPLES = 3`). -/
def vkeyCmp (v1 v2 : VKey) : ℤ :=
  if qcmp v1.p.1 v2.p.1 ≠ 0 then qcmp v1.p.1 v2.p.1
  else if qcmp v1.p.2.1 v2.p.2.1 ≠ 0 then qcmp v1.p.2.1 v2.p.2.1
  else if qcmp v1.p.2.2 v2.p.2.2 ≠ 0 then qcmp v1.p.2.2 v2.p.2.2
  else if qcmp v1.uv.1 v2.uv.1 ≠ 0 then qcmp v1.uv.1 v2.uv.1
  else if qcmp v1.uv.2 v2.uv.2 ≠ 0 then qcmp v1.uv.2 v2.uv.2
  else if qcmp v1.col.1 v2.col.1 ≠ 0 then qcmp v1.col.1 v2.col.1
  else if qcmp v1.col.2.1 v2.col.2.1 ≠ 0 then qcmp v1.col.2.1 v2.col.2.1
  else qcmp v1.col.2.2 v2.col.2.2

/-- Strict key order (`operator()`, line 403). -/
def vkeyLt (v1 v2 : VKey) : Bool := vkeyCmp v1 v2 < 0

/-- The `Vertex` key of vertex index `vi` (lines 454-460). -/
def keyAt (m : Mesh) (vi : ℕ) : VKey :=
  { p := m.positions.getD vi v3zero
    uv := match m.texcoords with
          | some ts => ts.getD vi v2zero
          | none => v2zero
    col := match m.colors with
           | some cls => cls.getD vi v3zero
           | none => v3zero }

/-- Key of corner `j` of triangle `i`. -/
def cornerKey (m : Mesh) (i j : ℕ) : VKey := keyAt m ((m.tri i).corner j)

/-- Position of corner `j` of triangle `i` (`m_positions[tri.idx[j]]`). -/
def cornerPos (m : Mesh) (i j : ℕ) : Vec3 :=
  m.positions.getD ((m.tri i).corner j) v3zero

/-- The multimap's insertion list (lines 452-461): for every triangle `i` in
order and every corner `j = 0, 1, 2`, one entry `(key, i)`. -/
def meshEntries (m : Mesh) : List (VKey × ℕ) :=
  (List.range m.triangles.length).flatMap fun i =>
    [(cornerKey m i 0, i), (cornerKey m i 1, i), (cornerKey m i 2, i)]

/-- Unnormalized face normal of triangle `i` (precomputed at line 466). -/
def crAt (m : Mesh) (i : ℕ) : Vec3 := triCross m (m.tri i)

/--
The greedy-clustering acceptance test of line 498,
`n1 == n2 || dot(n1, n2) > dpThresh`, at crease angle 180°
(`dpThresh = -1`), re-expressed exactly on the unnormalized cross products
as justified in the section comment.
-/
def cond180 (u1 u2 : Vec3) : Bool :=
  (decide (u1 ≠ v3zero) && decide (u2 ≠ v3zero)) &&
    (decide (vcross u1 u2 = v3zero ∧ 0 < vdot u1 u2) ||
     decide (¬(vcross u1 u2 = v3zero ∧ vdot u1 u2 < 0)))

/-- The sentinel a corner keeps until it is remapped (line 468). -/
def sentinelIdx : ℕ := 0xFFFFFFFF

/-- Output triangle under construction: three corner slots. -/
abbrev NewTri : Type := ℕ × ℕ × ℕ

/-- Corner slot `j` of an output triangle. -/
def ntCorner (tr : NewTri) (j : ℕ) : ℕ :=
  match j with
  | 0 => tr.1
  | 1 => tr.2.1
  | _ => tr.2.2

/-- Corner slot `j` of output triangle `i`. -/
def getCorner (tris : List NewTri) (i j : ℕ) : ℕ :=
  ntCorner (tris.getD i (sentinelIdx, sentinelIdx, sentinelIdx)) j

/--
Remap step for an absorbed occurrence (lines 499-504): every corner of
original triangle `t` whose position equals the bucket position `p` has its
output slot set to `vIdx`.
-/
def remapTri (m : Mesh) (p : Vec3) (vIdx t : ℕ) (tris : List NewTri) :
    List NewTri :=
  let orig := m.tri t
  let cur := tris.getD t (sentinelIdx, sentinelIdx, sentinelIdx)
  tris.set t
    ((if m.positions.getD orig.a v3zero = p then vIdx else ntCorner cur 0),
     (if m.positions.getD orig.b v3zero = p then vIdx else ntCorner cur 1),
     (if m.positions.getD orig.c v3zero = p then vIdx else ntCorner cur 2))

/--
The inner scan of lines 492-507 over the remainder of a bucket: absorb every
still-unclustered occurrence whose face normal passes `cond180` against the
seed's, remapping its triangle and marking it clustered.
-/
def scanAbsorb (m : Mesh) (u1 : Vec3) (p : Vec3) (vIdx : ℕ) :
    List (ℕ × Bool) → List NewTri → List (ℕ × Bool) × List NewTri
  | [], tris => ([], tris)
  | (t, cl) :: rest, tris =>
    if cl then
      let r := scanAbsorb m u1 p vIdx rest tris
      ((t, cl) :: r.1, r.2)
    else if cond180 u1 (crAt m t) then
      let tris1 := remapTri m p vIdx t tris
      let r := scanAbsorb m u1 p vIdx rest tris1
      ((t, true) :: r.1, r.2)
    else
      let r := scanAbsorb m u1 p vIdx rest tris
      ((t, cl) :: r.1, r.2)

/-- Clustering state: the output vertex attribute lists and the output
triangles (`newPositions`, `newTexcoords`, `newColors`, `newTriangles`). -/
structure BState where
  newPos : List Vec3
  newUV : List Vec2
  newCol : List Vec3
  tris : List NewTri
deriving DecidableEq

/-- Emit a new output vertex for a cluster seed (lines 485-490). -/
def pushKey (m : Mesh) (k : VKey) (st : BState) : BState :=
  { st with
    newPos := st.newPos ++ [k.p]
    newUV := if m.texcoords.isSome then st.newUV ++ [k.uv] else st.newUV
    newCol := if m.colors.isSome then st.newCol ++ [k.col] else st.newCol }

/--
The per-bucket loop of lines 478-508: walk the occurrences of one key in
order; each still-unclustered occurrence seeds a new output vertex and scans
itself and the remaining occurrences for absorption.  One unit of fuel is
consumed per occurrence, so fuel = bucket length runs the loop to the end.
-/
def bucketLoopAux (m : Mesh) (k : VKey) :
    ℕ → List (ℕ × Bool) → BState → BState
  | 0, _, st => st
  | _ + 1, [], st => st
  | f + 1, (t, cl) :: rest, st =>
    if cl then bucketLoopAux m k f rest st
    else
      let vIdx := st.newPos.length
      let st1 := pushKey m k st
      let u1 := crAt m t
      let tris0 := if cond180 u1 u1 then remapTri m k.p vIdx t st1.tris
                   else st1.tris
      let r := scanAbsorb m u1 k.p vIdx rest tris0
      bucketLoopAux m k f r.1 { st1 with tris := r.2 }

/-- Process one bucket: its occurrences in insertion order, all unclustered. -/
def bucketStep (m : Mesh) (entries : List (VKey × ℕ)) (st : BState)
    (k : VKey) : BState :=
  let bucket := (entries.filter (fun e => decide (e.1 = k))).map
    (fun e => (e.2, false))
  bucketLoopAux m k bucket.length bucket st

/-- Keys with duplicates removed (each key kept once). -/
def dedupKeys : List VKey → List VKey
  | [] => []
  | k :: rest =>
    let r := dedupKeys rest
    if k ∈ r then r else k :: r

/-- Insert into a `vkeyLt`-sorted list. -/
def insortKey (k : VKey) : List VKey → List VKey
  | [] => [k]
  | x :: r => if vkeyLt x k then x :: insortKey k r else k :: x :: r

/-- Sort keys ascending by `vkeyLt` (the multimap's bucket order). -/
def sortKeys : List VKey → List VKey
  | [] => []
  | k :: r => insortKey k (sortKeys r)

/-- The distinct keys of a mesh in the order the multimap visits them. -/
def meshKeys (m : Mesh) : List VKey :=
  sortKeys (dedupKeys ((meshEntries m).map Prod.fst))

/--
The clustering pass of `TriMesh::rebuildTopology` (lines 418-511) at crease
angle 180°: output triangles start at the sentinel (line 468), then each
bucket of the associative list is processed in key order.  The result holds
`newPositions` / `newTexcoords` / `newColors` / `newTriangles`; lines
517-541 then install these buffers into the mesh and re-run `configure()`.
-/
def rebuildTopology180 (m : Mesh) : BState :=
  (meshKeys m).foldl (bucketStep m (meshEntries m))
    { newPos := [], newUV := [], newCol := [],
      tris := List.replicate m.triangles.length
        (sentinelIdx, sentinelIdx, sentinelIdx) }

/-- The defensive check of lines 513-515: no corner still holds the
sentinel. -/
def rebuildAssertHolds (st : BState) : Bool :=
  st.tris.all fun tr =>
    decide (tr.1 ≠ sentinelIdx) && decide (tr.2.1 ≠ sentinelIdx) &&
      decide (tr.2.2 ≠ sentinelIdx)

/-- Exact anti-parallelism of two (nonzero) vectors: the configuration at
which `dot(n1, n2) = -1` exactly. -/
def antiparallel (u1 u2 : Vec3) : Prop :=
  vcross u1 u2 = v3zero ∧ vdot u1 u2 < 0

/-! ## Concrete meshes used by witnesses and counterexamples -/

/-- A mesh with no attributes and no geometry. -/
def baseMesh : Mesh :=
  { name := "mesh", positions := [], normals := none, texcoords := none,
    colors := none, tangents := none, triangles := [], faceNormals := false,
    flipNormals := false, anisotropic := false, surfaceArea := -1,
    invSurfaceArea := -1, areaDistr := none }

/-- One nondegenerate triangle, no optional attributes. -/
def meshOneTri : Mesh :=
  { baseMesh with positions := [(0, 0, 0), (1, 0, 0), (0, 1, 0)],
                  triangles := [⟨0, 1, 2⟩] }

/-- A mesh with every optional attribute present (for codec witnesses). -/
def meshFull : Mesh :=
  { baseMesh with
    name := "full"
    positions := [(0, 0, 0), (1, 0, 0), (0, 1, 0)]
    normals := some [(0, 0, 1), (0, 0, 1), (0, 0, 1)]
    texcoords := some [(0, 0), (1, 0), (0, 1)]
    colors := some [(1, 0, 0), (0, 1, 0), (0, 0, 1)]
    triangles := [⟨0, 1, 2⟩]
    faceNormals := true }

/-- A zero-area triangle (all corners coincide) with texcoords. -/
def meshZeroNormal : Mesh :=
  { baseMesh with positions := [(0, 0, 0), (0, 0, 0), (0, 0, 0)],
                  texcoords := some [(0, 0), (1, 0), (0, 1)],
                  triangles := [⟨0, 1, 2⟩] }

/-- A nondegenerate triangle whose texcoords all coincide (zero UV
determinant). -/
def meshZeroDet : Mesh :=
  { baseMesh with positions := [(0, 0, 0), (1, 0, 0), (0, 1, 0)],
                  texcoords := some [(0, 0), (0, 0), (0, 0)],
                  triangles := [⟨0, 1, 2⟩] }

/-- Two coincident triangles with opposite winding: identical vertex keys,
exactly anti-parallel face normals. -/
def meshOpposite : Mesh :=
  { baseMesh with positions := [(0, 0, 0), (1, 0, 0), (0, 1, 0)],
                  triangles := [⟨0, 1, 2⟩, ⟨0, 2, 1⟩] }

/-- One zero-area triangle: its face-normal normalization is undefined. -/
def meshDegenerate : Mesh :=
  { baseMesh with positions := [(0, 0, 0), (0, 0, 0), (0, 0, 0)],
                  triangles := [⟨0, 1, 2⟩] }

/-- A unit square split into two consistently wound triangles. -/
def meshQuad : Mesh :=
  { baseMesh with positions := [(0, 0, 0), (1, 0, 0), (1, 1, 0), (0, 1, 0)],
                  triangles := [⟨0, 1, 2⟩, ⟨0, 2, 3⟩] }

/-- An arbitrary orthonormal-basis builder standing in for
`coordinateSystem`. -/
def csAxes : Vec3 → Vec3 × Vec3 := fun _ => ((1, 0, 0), (0, 1, 0))

/-! ## C1 — segment-index range check -/

/--
C1: the claim says a requested segment index outside `[0, count)` — in
particular `index = count` — aborts with a fatal error.  The code's range
check (line 203) is `index < 0 || index > (int) count`, so `index = count`
is accepted and the function proceeds to seek with an out-of-range trailer
slot, while `index = count + 1` is rejected; the code's own error message
names `0..count-1` as the valid range.
-/
theorem loadCompressed_range_check_off_by_one (c : ℕ) (h : 0 < c) :
    loadCompressedHeaderCheck true 0x041C 0x0004 (c : ℤ) c = .ok () ∧
      loadCompressedHeaderCheck true 0x041C 0x0004 ((c : ℤ) + 1) c =
        .error .segmentRange := by
  have hc : (c : ℤ) ≠ 0 := by exact_mod_cast h.ne'
  constructor
  · simp only [loadCompressedHeaderCheck]
    rw [if_neg (by decide), if_neg (by decide), if_neg (by decide),
        if_neg (by decide), if_pos hc, if_neg (by omega)]
  · simp only [loadCompressedHeaderCheck]
    rw [if_neg (by decide), if_neg (by decide), if_neg (by decide),
        if_neg (by decide), if_pos (by omega), if_pos (by omega)]

/-- Witness for C1 at `count = 1`: requesting segment 1 of a 1-segment
archive passes the check; requesting segment 2 is rejected. -/
theorem loadCompressed_range_check_off_by_one_witness :
    0 < 1 ∧
      (loadCompressedHeaderCheck true 0x041C 0x0004 ((1 : ℕ) : ℤ) 1 =
          .ok () ∧
        loadCompressedHeaderCheck true 0x041C 0x0004 (((1 : ℕ) : ℤ) + 1) 1 =
          .error .segmentRange) :=
  ⟨by decide, loadCompressed_range_check_off_by_one 1 (by decide)⟩

/-! ## C9 — getNormalDerivative early-out -/

/--
C9: when `shadingFrame` is false or the mesh stores no vertex normals,
`getNormalDerivative` returns zero for both derivatives, for every
intersection record — including records whose `primIndex` is out of range —
so no triangle, position or normal data is consulted.
-/
theorem getNormalDerivative_zero_branch (invLen : Vec3 → ℚ) (m : Mesh)
    (p : Vec3) (primIndex : ℕ) (shadingFrame : Bool)
    (h : shadingFrame = false ∨ m.normals = none) :
    getNormalDerivative invLen m p primIndex shadingFrame =
      .ok (v3zero, v3zero) := by
  rcases h with rfl | h
  · rfl
  · cases shadingFrame
    · rfl
    · simp only [getNormalDerivative, h]

/-- Witness for C9: a mesh with normals, queried with `shadingFrame = false`
and an out-of-range `primIndex`. -/
theorem getNormalDerivative_zero_branch_witness :
    (false = false ∨ meshFull.normals = none) ∧
      getNormalDerivative (fun _ => 0) meshFull (5, 5, 5) 1000 false =
        .ok (v3zero, v3zero) :=
  ⟨Or.inl rfl,
   getNormalDerivative_zero_branch (fun _ => 0) meshFull (5, 5, 5) 1000 false
     (Or.inl rfl)⟩


/-! ## C8 — lazy area-distribution build -/

/--
C8: triggering the lazy build (here `prepareSamplingTable`, as reached from
`getSurfaceArea` or the first `samplePosition` call) on a zero-triangle
mesh is fatal; with at least one triangle the table is built only while
`surfaceArea` still holds the negative sentinel, after which `surfaceArea`
is nonnegative (areas are nonnegative) and `invSurfaceArea` is its
reciprocal; a mesh whose sentinel is already cleared is returned unchanged.
-/
theorem prepareSamplingTable_spec (triArea : ℕ → ℚ) (m : Mesh)
    (hA : ∀ i, 0 ≤ triArea i) :
    (m.triangles.length = 0 →
      prepareSamplingTable triArea m = .error .emptyMesh ∧
        (m.surfaceArea < 0 →
          getSurfaceArea triArea m = .error .emptyMesh)) ∧
    (m.triangles.length ≠ 0 → m.surfaceArea < 0 →
      ∃ m', prepareSamplingTable triArea m = .ok m' ∧
        0 ≤ m'.surfaceArea ∧ m'.invSurfaceArea = 1 / m'.surfaceArea ∧
        m'.areaDistr.isSome = true) ∧
    (m.triangles.length ≠ 0 → ¬m.surfaceArea < 0 →
      prepareSamplingTable triArea m = .ok m) := by
  refine ⟨fun h0 => ?_, fun h0 hs => ?_, fun h0 hs => ?_⟩
  · have hp : prepareSamplingTable triArea m = .error .emptyMesh := by
      simp [prepareSamplingTable, h0]
    exact ⟨hp, fun hs => by simp [getSurfaceArea, hs, hp]⟩
  · have hsum : 0 ≤ ((List.range m.triangles.length).map triArea).sum :=
      List.sum_nonneg (fun x hx => by
        rcases List.mem_map.mp hx with ⟨i, _, rfl⟩
        exact hA i)
    have heq : prepareSamplingTable triArea m = .ok
        { m with
          areaDistr := some ((List.range m.triangles.length).map triArea)
          surfaceArea := ((List.range m.triangles.length).map triArea).sum
          invSurfaceArea :=
            1 / ((List.range m.triangles.length).map triArea).sum } := by
      rw [prepareSamplingTable, if_neg h0, if_pos hs]
    exact ⟨_, heq, by simpa using hsum, rfl, rfl⟩
  · simp [prepareSamplingTable, h0, hs]

/-- Witness for C8: unit areas on the meshes `baseMesh` (0 triangles) and
`meshOneTri` (1 triangle, sentinel set). -/
theorem prepareSamplingTable_spec_witness :
    baseMesh.triangles.length = 0 ∧ meshOneTri.triangles.length ≠ 0 ∧
      meshOneTri.surfaceArea < 0 ∧
      prepareSamplingTable (fun _ => 1) baseMesh = .error .emptyMesh ∧
      ∃ m', prepareSamplingTable (fun _ => 1) meshOneTri = .ok m' ∧
        0 ≤ m'.surfaceArea ∧ m'.invSurfaceArea = 1 / m'.surfaceArea ∧
        m'.areaDistr.isSome = true :=
  ⟨rfl, by decide, by norm_num [meshOneTri, baseMesh],
   ((prepareSamplingTable_spec (fun _ => 1) baseMesh
       (fun _ => zero_le_one)).1 rfl).1,
   (prepareSamplingTable_spec (fun _ => 1) meshOneTri
       (fun _ => zero_le_one)).2.1 (by decide)
     (by norm_num [meshOneTri, baseMesh])⟩

/-! ## C7 — computeUVTangents error/no-op discipline -/

/--
C7: `computeUVTangents` raises a fatal error iff the mesh lacks texcoords
and the attached material is anisotropic; lacking texcoords on a
non-anisotropic material it returns the mesh unchanged (no tangents added);
with tangent frames already present (and no error condition) it is a no-op;
and any successful call is idempotent — a second call changes nothing.
-/
theorem computeUVTangents_spec (csn : Vec3 → Vec3 × Vec3) (m : Mesh) :
    ((∃ e, computeUVTangents csn m = .error e) ↔
      m.texcoords = none ∧ m.anisotropic = true) ∧
    (m.texcoords = none → m.anisotropic = false →
      computeUVTangents csn m = .ok (m, 0)) ∧
    (m.tangents.isSome = true →
      ¬(m.texcoords = none ∧ m.anisotropic = true) →
      computeUVTangents csn m = .ok (m, 0)) ∧
    (∀ m' c, computeUVTangents csn m = .ok (m', c) →
      computeUVTangents csn m' = .ok (m', 0)) := by
  rcases htex : m.texcoords with _ | uvs
  · rcases haniso : m.anisotropic
    · have hval : computeUVTangents csn m = .ok (m, 0) := by
        simp [computeUVTangents, htex, haniso]
      refine ⟨⟨fun ⟨e, he⟩ => ?_, fun ⟨_, ha⟩ => absurd ha (by decide)⟩,
        fun _ _ => hval, fun _ _ => hval, fun m' c hok => ?_⟩
      · rw [hval] at he; exact Except.noConfusion he
      · rw [hval] at hok
        injection hok with h
        injection h with h1 h2
        subst h1
        exact hval
    · have hval : computeUVTangents csn m = .error .needTexcoords := by
        simp [computeUVTangents, htex, haniso]
      refine ⟨⟨fun _ => ⟨rfl, rfl⟩, fun _ => ⟨.needTexcoords, hval⟩⟩,
        fun _ ha => absurd ha (by decide),
        fun _ hcon => absurd ⟨rfl, rfl⟩ hcon, fun m' c hok => ?_⟩
      rw [hval] at hok
      exact Except.noConfusion hok
  · rcases htg : m.tangents with _ | tgs
    · have hval : ∃ prs cnt, computeUVTangents csn m =
          .ok ({ m with tangents := some prs }, cnt) :=
        ⟨(m.triangles.foldl (tangentStep csn m uvs) ([], 0)).1,
         (m.triangles.foldl (tangentStep csn m uvs) ([], 0)).2,
         by simp [computeUVTangents, htex, htg]⟩
      obtain ⟨prs, cnt, hval⟩ := hval
      refine ⟨⟨fun ⟨e, he⟩ => ?_, fun ⟨ht, _⟩ => Option.noConfusion ht⟩,
        fun ht _ => Option.noConfusion ht,
        fun hsome _ => absurd hsome (by simp [htg]), fun m' c hok => ?_⟩
      · rw [hval] at he; exact Except.noConfusion he
      · rw [hval] at hok
        injection hok with h
        injection h with h1 h2
        subst h1
        simp [computeUVTangents, htex]
    · have hval : computeUVTangents csn m = .ok (m, 0) := by
        simp [computeUVTangents, htex, htg]
      refine ⟨⟨fun ⟨e, he⟩ => ?_, fun ⟨ht, _⟩ => Option.noConfusion ht⟩,
        fun ht _ => Option.noConfusion ht,
        fun _ _ => hval, fun m' c hok => ?_⟩
      · rw [hval] at he; exact Except.noConfusion he
      · rw [hval] at hok
        injection hok with h
        injection h with h1 h2
        subst h1
        exact hval

/-- Witness for C7: no texcoords and not anisotropic — silent no-op. -/
theorem computeUVTangents_spec_witness :
    meshOneTri.texcoords = none ∧ meshOneTri.anisotropic = false ∧
      computeUVTangents csAxes meshOneTri = .ok (meshOneTri, 0) :=
  ⟨rfl, rfl, (computeUVTangents_spec csAxes meshOneTri).2.1 rfl rfl⟩

/-! ## C2 — degenerate handling in computeUVTangents -/

/-- The tangent loop of lines 636-670 appends one pair per triangle and
counts exactly the triangles whose geometric normal is zero. -/
theorem tangentStep_foldl (csn : Vec3 → Vec3 × Vec3) (m : Mesh)
    (uvs : List Vec2) (l : List Tri) (acc : List (Vec3 × Vec3) × ℕ) :
    l.foldl (tangentStep csn m uvs) acc =
      (acc.1 ++ l.map (tangentOf csn m uvs),
       acc.2 + l.countP (fun t => decide (triCross m t = v3zero))) := by
  induction l generalizing acc with
  | nil => simp
  | cons t r ih =>
    rw [List.foldl_cons, ih]
    by_cases hc : triCross m t = v3zero
    · simp [tangentStep, List.countP_cons, hc]
      omega
    · simp [tangentStep, List.countP_cons, hc]

/-- An orthonormal pair of vectors (unit lengths, perpendicular). -/
def orthonormalPair (u v : Vec3) : Prop :=
  vdot u u = 1 ∧ vdot v v = 1 ∧ vdot u v = 0

/--
C2 (amended): on a mesh with texcoords and no tangent frames yet,
`computeUVTangents` succeeds; the degenerate tally counts exactly the
triangles whose geometric normal is zero — those keep the zero
(`memset`-initialized) tangent pair, not an orthonormal basis — while a
triangle with a nonzero normal but zero UV determinant receives the
`coordinateSystem` fallback basis and is *not* counted.
-/
theorem computeUVTangents_degenerate_policy (csn : Vec3 → Vec3 × Vec3)
    (m : Mesh) (uvs : List Vec2) (htex : m.texcoords = some uvs)
    (htg : m.tangents = none) :
    computeUVTangents csn m =
      .ok ({ m with tangents := some (m.triangles.map (tangentOf csn m uvs)) },
        m.triangles.countP (fun t => decide (triCross m t = v3zero))) ∧
    ∀ t ∈ m.triangles,
      (triCross m t = v3zero → tangentOf csn m uvs t = (v3zero, v3zero)) ∧
      (triCross m t ≠ v3zero → triUVDet uvs t = 0 →
        tangentOf csn m uvs t = csn (triCross m t)) := by
  refine ⟨?_, fun t _ => ⟨fun hc => ?_, fun hc hdet => ?_⟩⟩
  · simp [computeUVTangents, htex, htg, tangentStep_foldl]
  · simp [tangentOf, hc]
  · simp [tangentOf, hc, hdet]

/-- Witness for C2 (amended), on the zero-UV-determinant mesh. -/
theorem computeUVTangents_degenerate_policy_witness :
    meshZeroDet.texcoords = some [(0, 0), (0, 0), (0, 0)] ∧
      meshZeroDet.tangents = none ∧
      computeUVTangents csAxes meshZeroDet =
        .ok ({ meshZeroDet with tangents := some [((1, 0, 0), (0, 1, 0))] },
          0) :=
  ⟨rfl, rfl,
   ((computeUVTangents_degenerate_policy csAxes meshZeroDet
       [(0, 0), (0, 0), (0, 0)] rfl rfl).1).trans
     (by with_unfolding_all rfl)⟩

/--
C2 is false as stated: on `meshZeroNormal` (one zero-area triangle, valid
texcoords) the triangle is tallied as degenerate but its stored tangent
pair is the zero pair — which is not an orthonormal basis — and on
`meshZeroDet` (nonzero normal, zero UV determinant) the fallback basis is
stored yet the degenerate tally stays 0 although a zero-determinant
triangle exists.
-/
theorem computeUVTangents_degenerate_counterexample :
    computeUVTangents csAxes meshZeroNormal =
      .ok ({ meshZeroNormal with tangents := some [(v3zero, v3zero)] }, 1) ∧
    ¬orthonormalPair v3zero v3zero ∧
    triUVDet [(0, 0), (0, 0), (0, 0)] ⟨0, 1, 2⟩ = 0 ∧
    triCross meshZeroDet ⟨0, 1, 2⟩ ≠ v3zero ∧
    computeUVTangents csAxes meshZeroDet =
      .ok ({ meshZeroDet with tangents := some [((1, 0, 0), (0, 1, 0))] },
        0) := by
  refine ⟨by with_unfolding_all rfl, ?_, by with_unfolding_all rfl,
    by with_unfolding_all decide, by with_unfolding_all rfl⟩
  intro h
  have h1 := h.1
  simp [vdot, v3zero] at h1

/-! ## C5 / C10 — standalone round-trip and sequential index-0 decoding -/

/-- Flattening a `Vec3` array yields `3` scalars per element. -/
theorem flatten3_length (l : List Vec3) :
    (flatten3 l).length = l.length * 3 := by
  induction l with
  | nil => rfl
  | cons v r ih => simp [flatten3, ih]; omega

/-- Flattening a `Vec2` array yields `2` scalars per element. -/
theorem flatten2_length (l : List Vec2) :
    (flatten2 l).length = l.length * 2 := by
  induction l with
  | nil => rfl
  | cons v r ih => simp [flatten2, ih]; omega

/-- Flattening a triangle array yields `3` indices per element. -/
theorem flattenTri_length (l : List Tri) :
    (flattenTri l).length = l.length * 3 := by
  induction l with
  | nil => rfl
  | cons v r ih => simp [flattenTri, ih]; omega

/-- Reading exactly the floats that were written consumes them and nothing
else. -/
theorem readFloats_of_length (n : ℕ) (l : List ℚ) (rest : List Cell)
    (h : l.length = n) :
    readFloats n (l.map Cell.flt ++ rest) = .ok (l, rest) := by
  induction l generalizing n with
  | nil => cases h; rfl
  | cons x r ih =>
    cases h
    simp [readFloats, ih r.length rfl]

/-- Reading exactly the uint32 scalars that were written consumes them and
nothing else. -/
theorem readUInts_of_length (n : ℕ) (l : List ℕ) (rest : List Cell)
    (h : l.length = n) :
    readUInts n (l.map Cell.uint ++ rest) = .ok (l, rest) := by
  induction l generalizing n with
  | nil => cases h; rfl
  | cons x r ih =>
    cases h
    simp [readUInts, ih r.length rfl]

/-- The width-conversion paths of `readHelper` are lossless on exact
scalars: every branch reads the same values. -/
theorem readHelper_eq (fd hd : Bool) (n : ℕ) (cs : List Cell) :
    readHelper fd hd n cs = readFloats n cs := by
  unfold readHelper
  split_ifs
  · rfl
  · rcases h : readFloats n cs with e | ⟨l, rest⟩ <;> simp [h]
  · rcases h : readFloats n cs with e | ⟨l, rest⟩ <;> simp [h]

/-- Unflattening inverts flattening for `Vec3` arrays. -/
theorem chunk3_flatten3 (l : List Vec3) : chunk3 (flatten3 l) = l := by
  induction l with
  | nil => rfl
  | cons v r ih => simp [flatten3, chunk3, ih]

/-- Unflattening inverts flattening for `Vec2` arrays. -/
theorem chunk2_flatten2 (l : List Vec2) : chunk2 (flatten2 l) = l := by
  induction l with
  | nil => rfl
  | cons v r ih => simp [flatten2, chunk2, ih]

/-- Unflattening inverts flattening for triangle arrays. -/
theorem chunkTri_flattenTri (l : List Tri) : chunkTri (flattenTri l) = l := by
  induction l with
  | nil => rfl
  | cons v r ih => simp [flattenTri, chunkTri, ih]

/-- `EHasNormals` readback from a written flag word. -/
theorem flagSet_mkFlags_normals (hd bn bt bc bf : Bool) :
    flagSet (mkFlags hd bn bt bc bf) 0x0001 = bn := by
  cases hd <;> cases bn <;> cases bt <;> cases bc <;> cases bf <;> decide

/-- `EHasTexcoords` readback from a written flag word. -/
theorem flagSet_mkFlags_texcoords (hd bn bt bc bf : Bool) :
    flagSet (mkFlags hd bn bt bc bf) 0x0002 = bt := by
  cases hd <;> cases bn <;> cases bt <;> cases bc <;> cases bf <;> decide

/-- `EHasColors` readback from a written flag word. -/
theorem flagSet_mkFlags_colors (hd bn bt bc bf : Bool) :
    flagSet (mkFlags hd bn bt bc bf) 0x0008 = bc := by
  cases hd <;> cases bn <;> cases bt <;> cases bc <;> cases bf <;> decide

/-- `EFaceNormals` readback from a written flag word. -/
theorem flagSet_mkFlags_faceNormals (hd bn bt bc bf : Bool) :
    flagSet (mkFlags hd bn bt bc bf) 0x0010 = bf := by
  cases hd <;> cases bn <;> cases bt <;> cases bc <;> cases bf <;> decide

/-- The all-or-nothing buffer invariant of the mesh (spec §3): every present
optional attribute array has `vertexCount` entries. -/
def meshAttrLenOK (m : Mesh) : Prop :=
  (∀ ns, m.normals = some ns → ns.length = m.positions.length) ∧
  (∀ ts, m.texcoords = some ts → ts.length = m.positions.length) ∧
  (∀ cls, m.colors = some cls → cls.length = m.positions.length)

/--
Decoding the byte-exact output of the standalone writer, with any suffix
left on the stream: the index-0 reader consumes exactly the written cells
and reconstructs every field, leaving the suffix untouched.
-/
theorem loadCompressed0_serCells (hw hr : Bool) (base m : Mesh)
    (hwf : meshAttrLenOK m) (extra : List Cell) :
    loadCompressed0 hr true base (serCells hw m ++ extra) =
      .ok (loadedMesh base m.name m.faceNormals m.positions m.normals
        m.texcoords m.colors m.triangles, extra) := by
  obtain ⟨hn, ht, hc⟩ := hwf
  rcases hN : m.normals with _ | ns <;>
    rcases hT : m.texcoords with _ | ts <;>
      rcases hC : m.colors with _ | cls <;>
        simp [serCells, hN, hT, hC, loadCompressed0, readShortC, readUIntC,
          readUSizeC, readStrC, readHelper_eq, readFloats_of_length,
          readUInts_of_length, flatten3_length, flatten2_length,
          flattenTri_length, chunk3_flatten3, chunk2_flatten2,
          chunkTri_flattenTri, Except.map, flagSet_mkFlags_normals,
          flagSet_mkFlags_texcoords, flagSet_mkFlags_colors,
          flagSet_mkFlags_faceNormals, loadedMesh, hn, ht, hc]

/--
C5: writing a mesh in standalone form with `serialize(Stream*)` and reading
the result back with `loadCompressed` (segment 0) reproduces the vertex and
triangle data exactly: identical positions (hence vertex count), identical
triangles (hence triangle count and indices), identical name, and identical
normals / texcoords / colors (hence the same presence flags), for any
writer/reader native float widths — exact scalars make the width-conversion
paths lossless.
-/
theorem serialize_loadCompressed_roundtrip (hw hr : Bool) (base m : Mesh)
    (hwf : meshAttrLenOK m) (cs : List Cell)
    (hser : serializeStandalone hw true m = .ok cs) :
    ∃ m', loadCompressed0 hr true base cs = .ok (m', []) ∧
      m'.positions = m.positions ∧ m'.triangles = m.triangles ∧
      m'.name = m.name ∧ m'.normals = m.normals ∧
      m'.texcoords = m.texcoords ∧ m'.colors = m.colors ∧
      m'.faceNormals = m.faceNormals := by
  have hcs : cs = serCells hw m := by
    simpa [serializeStandalone] using hser.symm
  subst hcs
  refine ⟨loadedMesh base m.name m.faceNormals m.positions m.normals
    m.texcoords m.colors m.triangles, ?_, rfl, rfl, rfl, rfl, rfl, rfl, rfl⟩
  simpa using loadCompressed0_serCells hw hr base m hwf []

/-- Witness for C5: full-featured mesh, host width double on both sides. -/
theorem serialize_loadCompressed_roundtrip_witness :
    ∃ m', loadCompressed0 true true baseMesh (serCells true meshFull) =
        .ok (m', []) ∧
      m'.positions = meshFull.positions ∧
      m'.triangles = meshFull.triangles ∧ m'.name = meshFull.name ∧
      m'.normals = meshFull.normals ∧ m'.texcoords = meshFull.texcoords ∧
      m'.colors = meshFull.colors ∧ m'.faceNormals = meshFull.faceNormals :=
  serialize_loadCompressed_roundtrip true true baseMesh meshFull
    (by exact ⟨fun ns h => (by cases h; rfl), fun ts h => (by cases h; rfl),
      fun cls h => (by cases h; rfl)⟩)
    (serCells true meshFull) rfl

/--
C10: with segment index 0, `loadCompressed` reads the stream purely
sequentially — the trailer block (lines 196-219) is skipped, so the archive
needs no trailing offset table at all and the index is never validated
against a segment count: decoding succeeds with an arbitrary (possibly
empty) suffix after the body and leaves that suffix unread.
-/
theorem loadCompressed_index0_needs_no_trailer (hw hr : Bool) (base m : Mesh)
    (hwf : meshAttrLenOK m) (cs extra : List Cell)
    (hser : serializeStandalone hw true m = .ok cs) :
    ∃ m', loadCompressed0 hr true base (cs ++ extra) = .ok (m', extra) ∧
      m'.positions = m.positions ∧ m'.triangles = m.triangles ∧
      m'.name = m.name := by
  have hcs : cs = serCells hw m := by
    simpa [serializeStandalone] using hser.symm
  subst hcs
  exact ⟨loadedMesh base m.name m.faceNormals m.positions m.normals
    m.texcoords m.colors m.triangles,
    loadCompressed0_serCells hw hr base m hwf extra, rfl, rfl, rfl⟩

/-- Witness for C10: a trailer-less stream followed by unrelated cells. -/
theorem loadCompressed_index0_needs_no_trailer_witness :
    ∃ m', loadCompressed0 true true baseMesh
        (serCells true meshOneTri ++ [Cell.uint 7]) = .ok (m', [Cell.uint 7]) ∧
      m'.positions = meshOneTri.positions ∧
      m'.triangles = meshOneTri.triangles ∧ m'.name = meshOneTri.name :=
  loadCompressed_index0_needs_no_trailer true true baseMesh meshOneTri
    (by exact ⟨fun ns h => (by cases h), fun ts h => (by cases h),
      fun cls h => (by cases h)⟩)
    (serCells true meshOneTri) [Cell.uint 7] rfl

/-! ## C3 / C4 — rebuildTopology clustering proofs -/

/-- The cross product of a vector with itself vanishes. -/
theorem vcross_self (u : Vec3) : vcross u u = v3zero := by
  simp [vcross, v3zero, mul_comm]

/-- The cross product with a zero left factor vanishes. -/
theorem vcross_zero_left (u : Vec3) : vcross v3zero u = v3zero := by
  simp [vcross, v3zero]

/-- The cross product with a zero right factor vanishes. -/
theorem vcross_zero_right (u : Vec3) : vcross u v3zero = v3zero := by
  simp [vcross, v3zero]

/-- Subtracting a vector from itself gives zero. -/
theorem vsub_self_zero (u : Vec3) : vsub u u = v3zero := by
  simp [vsub, v3zero]

/-- A dot product of a vector with itself is nonnegative. -/
theorem vdot_self_nonneg (u : Vec3) : 0 ≤ vdot u u := by
  have h1 := mul_self_nonneg u.1
  have h2 := mul_self_nonneg u.2.1
  have h3 := mul_self_nonneg u.2.2
  simp only [vdot]
  linarith

/-- A pair of vectors is never anti-parallel to itself. -/
theorem not_antiparallel_self (u : Vec3) : ¬antiparallel u u := by
  intro h
  exact absurd h.2 (not_lt.mpr (vdot_self_nonneg u))

/-- The acceptance test at 180° succeeds on any two well-defined,
non-anti-parallel face normals. -/
theorem cond180_true_of (u v : Vec3) (hu : u ≠ v3zero) (hv : v ≠ v3zero)
    (h : ¬antiparallel u v) : cond180 u v = true := by
  have h' : ¬(vcross u v = v3zero ∧ vdot u v < 0) := h
  simp [cond180, hu, hv, h']

/-- A triangle two of whose corners share a position has a zero geometric
normal (its two edge vectors are equal or one of them vanishes). -/
theorem crAt_eq_zero_of_shared_pos (m : Mesh) (i j j' : ℕ) (hj : j < 3)
    (hj' : j' < 3) (hne : j ≠ j') (hpos : cornerPos m i j = cornerPos m i j') :
    crAt m i = v3zero := by
  have e01 : cornerPos m i 0 = cornerPos m i 1 → crAt m i = v3zero := by
    intro h
    simp only [cornerPos, Tri.corner, crAt, triCross, Mesh.pos] at h ⊢
    rw [← h, vsub_self_zero, vcross_zero_left]
  have e02 : cornerPos m i 0 = cornerPos m i 2 → crAt m i = v3zero := by
    intro h
    simp only [cornerPos, Tri.corner, crAt, triCross, Mesh.pos] at h ⊢
    rw [← h, vsub_self_zero, vcross_zero_right]
  have e12 : cornerPos m i 1 = cornerPos m i 2 → crAt m i = v3zero := by
    intro h
    simp only [cornerPos, Tri.corner, crAt, triCross, Mesh.pos] at h ⊢
    rw [← h, vcross_self]
  interval_cases j <;> interval_cases j' <;>
    first
      | exact absurd rfl hne
      | exact e01 hpos
      | exact e02 hpos
      | exact e12 hpos
      | exact e01 hpos.symm
      | exact e02 hpos.symm
      | exact e12 hpos.symm

/-- `getD` after `set` at the same (in-range) index yields the new value. -/
theorem getD_set_self {α : Type} (l : List α) (i : ℕ) (a d : α)
    (h : i < l.length) : (l.set i a).getD i d = a := by
  induction l generalizing i with
  | nil => simp at h
  | cons x r ih =>
    cases i with
    | zero => rfl
    | succ n =>
      simp only [List.set, List.getD_cons_succ]
      exact ih n (by simpa using h)

/-- `getD` after `set` at a different index is unchanged. -/
theorem getD_set_other {α : Type} (l : List α) (i j : ℕ) (a d : α)
    (h : i ≠ j) : (l.set i a).getD j d = l.getD j d := by
  induction l generalizing i j with
  | nil => simp
  | cons x r ih =>
    cases i with
    | zero =>
      cases j with
      | zero => exact absurd rfl h
      | succ n => rfl
    | succ n =>
      cases j with
      | zero => rfl
      | succ p =>
        simp only [List.set, List.getD_cons_succ]
        exact ih n p (by omega)

/-- The position component of a corner's key is the corner's position. -/
theorem cornerKey_p (m : Mesh) (i j : ℕ) :
    (cornerKey m i j).p = cornerPos m i j := rfl

/-- `remapTri` leaves the output-triangle count unchanged. -/
theorem remapTri_length (m : Mesh) (p : Vec3) (vIdx t : ℕ)
    (tris : List NewTri) : (remapTri m p vIdx t tris).length = tris.length := by
  simp [remapTri]

/--
Corner-level effect of one remap (lines 499-504): corner `j` of output
triangle `i` is set to `vIdx` exactly when `i` is the remapped triangle and
the corner's position equals the bucket position; all other slots keep their
value.
-/
theorem getCorner_remapTri (m : Mesh) (p : Vec3) (vIdx t : ℕ)
    (tris : List NewTri) (i j : ℕ) (ht : t < tris.length) (hj : j < 3) :
    getCorner (remapTri m p vIdx t tris) i j =
      if i = t ∧ cornerPos m i j = p then vIdx else getCorner tris i j := by
  by_cases hit : i = t
  · subst hit
    simp only [getCorner, remapTri]
    rw [getD_set_self _ _ _ _ ht]
    interval_cases j <;>
      · simp only [ntCorner, cornerPos, Tri.corner, Mesh.tri]
        split_ifs <;> simp_all [Mesh.tri]
  · simp only [getCorner, remapTri]
    rw [getD_set_other _ _ _ _ _ (by omega)]
    simp [hit]

/-- A left fold of remaps leaves the output-triangle count unchanged. -/
theorem foldl_remapTri_length (m : Mesh) (p : Vec3) (vIdx : ℕ)
    (ts : List (ℕ × Bool)) (tris : List NewTri) :
    (ts.foldl (fun tr e => remapTri m p vIdx e.1 tr) tris).length =
      tris.length := by
  induction ts generalizing tris with
  | nil => rfl
  | cons e r ih => simp [ih, remapTri_length]

/--
Corner-level effect of remapping every triangle of a bucket: a slot becomes
`vIdx` exactly when its triangle occurs in the list and its corner position
matches the bucket position.
-/
theorem getCorner_foldl_remapTri (m : Mesh) (p : Vec3) (vIdx : ℕ)
    (ts : List (ℕ × Bool)) (tris : List NewTri) (i j : ℕ)
    (hts : ∀ e ∈ ts, e.1 < tris.length) (hj : j < 3) :
    getCorner (ts.foldl (fun tr e => remapTri m p vIdx e.1 tr) tris) i j =
      if (∃ e ∈ ts, e.1 = i) ∧ cornerPos m i j = p then vIdx
      else getCorner tris i j := by
  induction ts generalizing tris with
  | nil => simp
  | cons e r ih =>
    rw [List.foldl_cons,
        ih (remapTri m p vIdx e.1 tris)
          (fun e' he' => by rw [remapTri_length]; exact hts e' (by simp [he'])),
        getCorner_remapTri m p vIdx e.1 tris i j (hts e (by simp)) hj]
    by_cases hp : cornerPos m i j = p
    · by_cases hr : ∃ e' ∈ r, e'.1 = i
      · obtain ⟨x, hx, hx1⟩ := hr
        rw [if_pos ⟨⟨x, hx, hx1⟩, hp⟩, if_pos ⟨⟨x, by simp [hx], hx1⟩, hp⟩]
      · by_cases hie : i = e.1
        · rw [if_neg (fun hc => hr hc.1), if_pos ⟨hie, hp⟩,
              if_pos ⟨⟨e, by simp, hie.symm⟩, hp⟩]
        · rw [if_neg (fun hc => hr hc.1), if_neg (fun hc => hie hc.1),
              if_neg (fun hc => ?_)]
          obtain ⟨⟨x, hx, hx1⟩, -⟩ := hc
          rcases List.mem_cons.mp hx with rfl | hx'
          · exact hie hx1.symm
          · exact hr ⟨x, hx', hx1⟩
    · rw [if_neg (fun hc => hp hc.2), if_neg (fun hc => hp hc.2),
          if_neg (fun hc => hp hc.2)]

/--
When every occurrence in the scanned remainder is still unclustered and
passes the acceptance test against the seed, the scan clusters all of them
and performs exactly one remap per occurrence, in order.
-/
theorem scanAbsorb_all (m : Mesh) (u1 : Vec3) (p : Vec3) (vIdx : ℕ)
    (l : List (ℕ × Bool)) (tris : List NewTri)
    (hfl : ∀ e ∈ l, e.2 = false)
    (hcd : ∀ e ∈ l, cond180 u1 (crAt m e.1) = true) :
    scanAbsorb m u1 p vIdx l tris =
      (l.map (fun e => (e.1, true)),
       l.foldl (fun tr e => remapTri m p vIdx e.1 tr) tris) := by
  induction l generalizing tris with
  | nil => rfl
  | cons e r ih =>
    obtain ⟨t, cl⟩ := e
    have hcl : cl = false := hfl (t, cl) (by simp)
    subst hcl
    simp only [scanAbsorb, if_neg Bool.false_ne_true,
      hcd (t, false) (by simp), if_true]
    rw [ih (remapTri m p vIdx t tris) (fun e he => hfl e (by simp [he]))
        (fun e he => hcd e (by simp [he]))]
    simp

/-- Once every occurrence of a bucket is clustered, the per-bucket loop
only skips. -/
theorem bucketLoopAux_allTrue (m : Mesh) (k : VKey) (l : List (ℕ × Bool))
    (hfl : ∀ e ∈ l, e.2 = true) :
    ∀ (f : ℕ) (st : BState), bucketLoopAux m k f l st = st := by
  induction l with
  | nil => intro f st; cases f <;> rfl
  | cons e r ih =>
    intro f st
    cases f with
    | zero => rfl
    | succ f' =>
      obtain ⟨t, cl⟩ := e
      have hcl : cl = true := hfl (t, cl) (by simp)
      subst hcl
      simp only [bucketLoopAux, if_true]
      exact ih (fun e he => hfl e (by simp [he])) f' st

/--
Processing a nonempty bucket whose occurrences are all unclustered and all
pass the acceptance test against the first occurrence's face normal: the
first occurrence seeds one single new output vertex, the scan absorbs every
occurrence (the seed included), and the loop then only skips — so the
bucket contributes exactly one vertex and one remap per occurrence.
-/
theorem bucketLoopAux_full (m : Mesh) (k : VKey) (t0 : ℕ)
    (rest : List (ℕ × Bool)) (st : BState)
    (hfl : ∀ e ∈ rest, e.2 = false)
    (hcd : ∀ e ∈ (t0, false) :: rest, cond180 (crAt m t0) (crAt m e.1) = true) :
    bucketLoopAux m k ((t0, false) :: rest).length ((t0, false) :: rest) st =
      { pushKey m k st with
        tris := ((t0, false) :: rest).foldl
          (fun tr e => remapTri m k.p st.newPos.length e.1 tr) st.tris } := by
  have hself : cond180 (crAt m t0) (crAt m t0) = true :=
    hcd (t0, false) (by simp)
  simp only [List.length_cons, bucketLoopAux, if_neg Bool.false_ne_true]
  rw [if_pos hself]
  rw [scanAbsorb_all m (crAt m t0) k.p st.newPos.length rest
      (remapTri m k.p st.newPos.length t0 (pushKey m k st).tris) hfl
      (fun e he => hcd e (by simp [he]))]
  have hpush : (pushKey m k st).tris = st.tris := rfl
  rw [hpush]
  have hall : ∀ e ∈ rest.map (fun e : ℕ × Bool => (e.1, true)), e.2 = true := by
    intro e he
    obtain ⟨x, _, rfl⟩ := List.mem_map.mp he
    rfl
  rw [bucketLoopAux_allTrue m k _ hall]
  simp

/-- Membership in the multimap insertion list: entries are exactly the
(key, triangle) pairs of the mesh's corners. -/
theorem mem_meshEntries (m : Mesh) (k : VKey) (i : ℕ) :
    (k, i) ∈ meshEntries m ↔
      i < m.triangles.length ∧ ∃ j, j < 3 ∧ cornerKey m i j = k := by
  constructor
  · intro h
    simp only [meshEntries, List.mem_flatMap, List.mem_range] at h
    obtain ⟨i', hi', hmem⟩ := h
    simp only [List.mem_cons, List.not_mem_nil, or_false,
      Prod.mk.injEq] at hmem
    rcases hmem with ⟨hk, rfl⟩ | ⟨hk, rfl⟩ | ⟨hk, rfl⟩
    · exact ⟨hi', 0, by omega, hk.symm⟩
    · exact ⟨hi', 1, by omega, hk.symm⟩
    · exact ⟨hi', 2, by omega, hk.symm⟩
  · rintro ⟨hi, j, hj, rfl⟩
    simp only [meshEntries, List.mem_flatMap, List.mem_range]
    refine ⟨i, hi, ?_⟩
    interval_cases j <;> simp

/-- Insertion into a sorted key list permutes a cons. -/
theorem insortKey_perm (k : VKey) (l : List VKey) :
    (insortKey k l).Perm (k :: l) := by
  induction l with
  | nil => exact List.Perm.refl _
  | cons x r ih =>
    simp only [insortKey]
    split_ifs
    · exact ((ih.cons x).trans (List.Perm.swap k x r))
    · exact List.Perm.refl _

/-- Sorting keys permutes them. -/
theorem sortKeys_perm (l : List VKey) : (sortKeys l).Perm l := by
  induction l with
  | nil => exact List.Perm.refl _
  | cons k r ih => exact (insortKey_perm k (sortKeys r)).trans (ih.cons k)

/-- Deduplicated keys carry no duplicates. -/
theorem dedupKeys_nodup (l : List VKey) : (dedupKeys l).Nodup := by
  induction l with
  | nil => exact List.nodup_nil
  | cons k r ih =>
    simp only [dedupKeys]
    split_ifs with h
    · exact ih
    · exact List.nodup_cons.mpr ⟨h, ih⟩

/-- Deduplication preserves membership. -/
theorem mem_dedupKeys (l : List VKey) (x : VKey) :
    x ∈ dedupKeys l ↔ x ∈ l := by
  induction l with
  | nil => simp [dedupKeys]
  | cons k r ih =>
    simp only [dedupKeys]
    split_ifs with h
    · rw [ih]
      constructor
      · exact fun hx => List.mem_cons_of_mem k hx
      · intro hx
        rcases List.mem_cons.mp hx with rfl | hx
        · exact ih.mp h
        · exact hx
    · simp [ih]

/-- The distinct sorted key list of a mesh has no duplicates. -/
theorem meshKeys_nodup (m : Mesh) : (meshKeys m).Nodup :=
  ((sortKeys_perm _).nodup_iff).mpr
    (dedupKeys_nodup ((meshEntries m).map Prod.fst))

/-- A key occurs in the bucket-processing order iff some entry carries it. -/
theorem mem_meshKeys (m : Mesh) (k : VKey) :
    k ∈ meshKeys m ↔ k ∈ (meshEntries m).map Prod.fst := by
  rw [meshKeys, (sortKeys_perm _).mem_iff, mem_dedupKeys]

/-- The position of a key in a key list (first occurrence). -/
def idxOfKey (k : VKey) : List VKey → ℕ
  | [] => 0
  | x :: r => if x = k then 0 else idxOfKey k r + 1

/--
Effect of processing one bucket under the amended claim's provisos: the
bucket emits exactly one output vertex, and a corner slot is remapped to
that vertex exactly when the corner's full key is the bucket's key.
-/
theorem bucketStep_corner (m : Mesh)
    (h1 : ∀ i, i < m.triangles.length → crAt m i ≠ v3zero)
    (h2 : ∀ e1 ∈ meshEntries m, ∀ e2 ∈ meshEntries m, e1.1 = e2.1 →
      ¬antiparallel (crAt m e1.2) (crAt m e2.2))
    (k : VKey) (hk : k ∈ (meshEntries m).map Prod.fst) (st : BState)
    (hlen : st.tris.length = m.triangles.length) :
    (bucketStep m (meshEntries m) st k).newPos.length =
      st.newPos.length + 1 ∧
    (bucketStep m (meshEntries m) st k).tris.length = st.tris.length ∧
    ∀ i j, i < m.triangles.length → j < 3 →
      getCorner (bucketStep m (meshEntries m) st k).tris i j =
        if cornerKey m i j = k then st.newPos.length
        else getCorner st.tris i j := by
  have hbmem : ∀ t fl, (t, fl) ∈ ((meshEntries m).filter
      (fun e => decide (e.1 = k))).map (fun e => (e.2, false)) ↔
      ((k, t) ∈ meshEntries m ∧ fl = false) := by
    intro t fl
    constructor
    · intro h
      obtain ⟨e, he, heq⟩ := List.mem_map.mp h
      obtain ⟨he', hdec⟩ := List.mem_filter.mp he
      have hk1 : e.1 = k := of_decide_eq_true hdec
      obtain ⟨h2', h3'⟩ := Prod.mk.injEq .. ▸ heq
      refine ⟨?_, h3'.symm⟩
      rw [← hk1, ← h2']
      exact he'
    · rintro ⟨he, rfl⟩
      exact List.mem_map.mpr ⟨(k, t), List.mem_filter.mpr ⟨he, by simp⟩, rfl⟩
  obtain ⟨e0, he0, he0k⟩ := List.mem_map.mp hk
  have hne : ((meshEntries m).filter (fun e => decide (e.1 = k))).map
      (fun e : VKey × ℕ => (e.2, false)) ≠ [] := by
    intro hnil
    have : (e0.2, false) ∈ ((meshEntries m).filter
        (fun e => decide (e.1 = k))).map (fun e => (e.2, false)) :=
      (hbmem e0.2 false).mpr ⟨by rw [← he0k]; exact he0, rfl⟩
    rw [hnil] at this
    exact List.not_mem_nil _ this
  rcases hb : ((meshEntries m).filter (fun e => decide (e.1 = k))).map
      (fun e : VKey × ℕ => (e.2, false)) with _ | ⟨⟨t0, fl0⟩, brest⟩
  · exact absurd hb hne
  have hfl0 : fl0 = false :=
    ((hbmem t0 fl0).mp (hb ▸ List.mem_cons_self _ _)).2
  subst hfl0
  have ht0 : (k, t0) ∈ meshEntries m :=
    ((hbmem t0 false).mp (hb ▸ List.mem_cons_self _ _)).1
  have hmemb : ∀ e ∈ (t0, false) :: brest, (k, e.1) ∈ meshEntries m := by
    intro e he
    obtain ⟨t, fl⟩ := e
    have := (hbmem t fl).mp (hb ▸ he)
    exact this.1
  have hbound : ∀ t, (k, t) ∈ meshEntries m → t < m.triangles.length :=
    fun t ht => ((mem_meshEntries m k t).mp ht).1
  have hcd : ∀ e ∈ (t0, false) :: brest,
      cond180 (crAt m t0) (crAt m e.1) = true := by
    intro e he
    refine cond180_true_of _ _ (h1 t0 (hbound t0 ht0))
      (h1 e.1 (hbound e.1 (hmemb e he))) ?_
    exact h2 (k, t0) ht0 (k, e.1) (hmemb e he) rfl
  have hfl : ∀ e ∈ brest, e.2 = false := by
    intro e he
    obtain ⟨t, fl⟩ := e
    exact ((hbmem t fl).mp (hb ▸ List.mem_cons_of_mem _ he)).2
  have hfull := bucketLoopAux_full m k t0 brest st hfl hcd
  have hstep : bucketStep m (meshEntries m) st k =
      { pushKey m k st with
        tris := ((t0, false) :: brest).foldl
          (fun tr e => remapTri m k.p st.newPos.length e.1 tr) st.tris } := by
    rw [bucketStep, hb]
    exact hfull
  rw [hstep]
  refine ⟨by simp [pushKey], ?_, ?_⟩
  · exact foldl_remapTri_length m k.p st.newPos.length _ st.tris
  · intro i j hi hj
    rw [getCorner_foldl_remapTri m k.p st.newPos.length _ st.tris i j
        (fun e he => by rw [hlen]; exact hbound e.1 (hmemb e he)) hj]
    by_cases hkey : cornerKey m i j = k
    · rw [if_pos hkey, if_pos ?_]
      constructor
      · refine ⟨(i, false), ?_, rfl⟩
        rw [← hb]
        exact (hbmem i false).mpr
          ⟨(mem_meshEntries m k i).mpr ⟨hi, j, hj, hkey⟩, rfl⟩
      · rw [← cornerKey_p, hkey]
    · rw [if_neg hkey, if_neg ?_]
      rintro ⟨⟨e, he, rfl⟩, hpos⟩
      obtain ⟨-, j', hj', hkey'⟩ := (mem_meshEntries m k e.1).mp (hmemb e he)
      by_cases hjj : j = j'
      · exact hkey (hjj ▸ hkey')
      · refine h1 e.1 hi ?_
        refine crAt_eq_zero_of_shared_pos m e.1 j j' hj hj' hjj ?_
        rw [hpos, ← hkey', cornerKey_p]

/--
Effect of processing a list of distinct keys: every corner whose key is in
the list is remapped to the output vertex of its key's bucket (base offset
plus the key's position in the processing order); all other corners are
untouched.
-/
theorem foldl_bucketStep_corner (m : Mesh)
    (h1 : ∀ i, i < m.triangles.length → crAt m i ≠ v3zero)
    (h2 : ∀ e1 ∈ meshEntries m, ∀ e2 ∈ meshEntries m, e1.1 = e2.1 →
      ¬antiparallel (crAt m e1.2) (crAt m e2.2)) :
    ∀ (ks : List VKey) (st : BState), ks.Nodup →
      (∀ k ∈ ks, k ∈ (meshEntries m).map Prod.fst) →
      st.tris.length = m.triangles.length →
      ∀ i j, i < m.triangles.length → j < 3 →
        getCorner ((ks.foldl (bucketStep m (meshEntries m)) st)).tris i j =
          if cornerKey m i j ∈ ks then
            st.newPos.length + idxOfKey (cornerKey m i j) ks
          else getCorner st.tris i j := by
  intro ks
  induction ks with
  | nil => intro st _ _ _ i j hi hj; simp
  | cons k ks' ih =>
    intro st hnd hmem hlen i j hi hj
    obtain ⟨hk, hnd'⟩ := List.nodup_cons.mp hnd
    obtain ⟨hpos1, hlen1, hcorner⟩ :=
      bucketStep_corner m h1 h2 k (hmem k (by simp)) st hlen
    rw [List.foldl_cons,
        ih (bucketStep m (meshEntries m) st k) hnd'
          (fun x hx => hmem x (by simp [hx])) (by rw [hlen1, hlen]) i j hi hj,
        hcorner i j hi hj, hpos1]
    by_cases hin : cornerKey m i j ∈ ks'
    · have hne : ¬cornerKey m i j = k := fun h => hk (h ▸ hin)
      rw [if_pos hin, if_pos (by simp [hin])]
      simp only [idxOfKey, if_neg (fun h : k = cornerKey m i j => hne h.symm)]
      omega
    · by_cases heq : cornerKey m i j = k
      · rw [if_neg hin, if_pos heq, if_pos (by simp [heq])]
        simp [idxOfKey, heq.symm]
      · rw [if_neg hin, if_neg heq,
            if_neg (by simp [hin, heq])]

/--
Functional characterization of the 180° clustering under the provisos:
every corner slot ends up holding the position of its corner's key in the
bucket-processing order.
-/
theorem rebuildTopology180_corner (m : Mesh)
    (h1 : ∀ i, i < m.triangles.length → crAt m i ≠ v3zero)
    (h2 : ∀ e1 ∈ meshEntries m, ∀ e2 ∈ meshEntries m, e1.1 = e2.1 →
      ¬antiparallel (crAt m e1.2) (crAt m e2.2))
    (i j : ℕ) (hi : i < m.triangles.length) (hj : j < 3) :
    getCorner (rebuildTopology180 m).tris i j =
      idxOfKey (cornerKey m i j) (meshKeys m) := by
  have hmemk : cornerKey m i j ∈ meshKeys m := by
    rw [mem_meshKeys]
    exact List.mem_map.mpr
      ⟨(cornerKey m i j, i), (mem_meshEntries m _ i).mpr ⟨hi, j, hj, rfl⟩, rfl⟩
  rw [rebuildTopology180,
      foldl_bucketStep_corner m h1 h2 (meshKeys m) _ (meshKeys_nodup m)
        (fun k hk => (mem_meshKeys m k).mp hk) (by simp) i j hi hj,
      if_pos hmemk]
  simp

/--
C3 (amended): after `rebuildTopology` with crease angle 180°, all
(triangle, corner) occurrences sharing an exactly equal (position, uv,
color) key are remapped to one single output vertex, provided every
triangle's geometric face normal is well defined (nonzero cross product —
otherwise its normalization is NaN and the occurrence clusters with
nothing, leaving sentinel corners) and no two occurrences sharing a key
have exactly anti-parallel face normals (for which `dot(n1, n2) = -1` is
not `> cos(180°) = -1` and the comparison `n1 == n2` also fails, so they
are split into separate output vertices).
-/
theorem rebuildTopology180_merges_equal_keys (m : Mesh)
    (h1 : ∀ i, i < m.triangles.length → crAt m i ≠ v3zero)
    (h2 : ∀ e1 ∈ meshEntries m, ∀ e2 ∈ meshEntries m, e1.1 = e2.1 →
      ¬antiparallel (crAt m e1.2) (crAt m e2.2))
    (i1 j1 i2 j2 : ℕ) (hi1 : i1 < m.triangles.length) (hj1 : j1 < 3)
    (hi2 : i2 < m.triangles.length) (hj2 : j2 < 3)
    (hkey : cornerKey m i1 j1 = cornerKey m i2 j2) :
    getCorner (rebuildTopology180 m).tris i1 j1 =
      getCorner (rebuildTopology180 m).tris i2 j2 := by
  rw [rebuildTopology180_corner m h1 h2 i1 j1 hi1 hj1,
      rebuildTopology180_corner m h1 h2 i2 j2 hi2 hj2, hkey]

/-- Exact anti-parallelism is decidable. -/
instance antiparallelDecidable (u v : Vec3) : Decidable (antiparallel u v) :=
  inferInstanceAs (Decidable (vcross u v = v3zero ∧ vdot u v < 0))

/-- Witness for C3 (amended): a quad split into two consistently wound
triangles; the shared corners of the diagonal merge. -/
theorem rebuildTopology180_merges_equal_keys_witness :
    cornerKey meshQuad 0 0 = cornerKey meshQuad 1 0 ∧
      getCorner (rebuildTopology180 meshQuad).tris 0 0 =
        getCorner (rebuildTopology180 meshQuad).tris 1 0 :=
  ⟨by with_unfolding_all rfl,
   rebuildTopology180_merges_equal_keys meshQuad
     (by with_unfolding_all decide) (by with_unfolding_all decide)
     0 0 1 0 (by decide) (by decide) (by decide) (by decide)
     (by with_unfolding_all rfl)⟩

/--
C3 is false as stated: on `meshOpposite` — the same triangle twice with
opposite winding, so coincident (position, uv, color) keys but exactly
anti-parallel face normals — the occurrences of the shared key at corner 0
of both triangles are remapped to two different output vertices (0 and 1):
`dot(n1, n2) = -1` is not strictly greater than `cos(180°) = -1`, and
`n1 == n2` fails as well, so crease angle 180° does not merge them.
-/
theorem rebuildTopology180_antipodal_counterexample :
    cornerKey meshOpposite 0 0 = cornerKey meshOpposite 1 0 ∧
      antiparallel (crAt meshOpposite 0) (crAt meshOpposite 1) ∧
      getCorner (rebuildTopology180 meshOpposite).tris 0 0 = 0 ∧
      getCorner (rebuildTopology180 meshOpposite).tris 1 0 = 1 := by
  refine ⟨by with_unfolding_all rfl, ⟨by with_unfolding_all rfl, ?_⟩,
    by with_unfolding_all rfl, by with_unfolding_all rfl⟩
  show vdot (crAt meshOpposite 0) (crAt meshOpposite 1) < 0
  with_unfolding_all decide

/--
C4 is false on the code: on a mesh containing a degenerate triangle (all
three corners at the origin) the face normal's cross product is zero, its
normalization is IEEE NaN, every comparison in the clustering condition is
false, so no corner of the triangle is ever remapped: all three corners
keep the sentinel `0xFFFFFFFF` and the defensive assertion of lines
513-515 fires.
-/
theorem rebuildTopology180_assert_fires_on_degenerate :
    triCross meshDegenerate (meshDegenerate.tri 0) = v3zero ∧
      getCorner (rebuildTopology180 meshDegenerate).tris 0 0 = sentinelIdx ∧
      getCorner (rebuildTopology180 meshDegenerate).tris 0 1 = sentinelIdx ∧
      getCorner (rebuildTopology180 meshDegenerate).tris 0 2 = sentinelIdx ∧
      rebuildAssertHolds (rebuildTopology180 meshDegenerate) = false := by
  refine ⟨?_, ?_, ?_, ?_, ?_⟩ <;> with_unfolding_all rfl
